import Mathlib

/-!
Shallow embedding of `src/rust/src/main.rs` (a Bitcoin regtest workflow:
provision two wallets, mine until a spendable balance appears, send 20 BTC
from Miner to Trader, confirm, and reconcile the confirmed transaction into
a fee report).

Conventions of the embedding:
- amounts are kept in satoshis as `Nat` (the source's `u64` sats values);
  the `f64` display amounts of the source are display-only and are not part
  of any arithmetic claim, so they are not modelled;
- a Rust panic (`unwrap` on `None`, out-of-range indexing, debug-build
  integer overflow) and a propagated RPC error both abort the process, so
  both are modelled as `Except.error` with a describing message;
- the remote node is modelled by the data it returns: a transaction lookup
  function `String → Option RawTx`, and a balance oracle `Nat → Nat` for
  the mining loop (balance after a given number of generated blocks).
-/

namespace Capstone

/-- Networks an address can be tagged with (`bitcoincore_rpc::bitcoin::Network`;
only the distinction regtest / not-regtest matters to `main.rs`). -/
inductive Network where
  | regtest
  | testnet
  | mainnet
deriving DecidableEq, Repr

/-- An address as returned by the node, still unchecked: it carries the
network it actually belongs to and its canonical string form
(`Address.to_string()` after validation). -/
structure Address where
  network : Network
  addrRepr : String
deriving DecidableEq, Repr

/-- The message of the network-validation failure raised by
`require_network` when the address belongs to a different network. -/
def networkMismatchMsg : String := "address is not valid for the required network"

/-- `addr.require_network(net)` followed by `.to_string()`: yields the
canonical string of the address when its network matches, an error
otherwise. -/
def require_network (a : Address) (required : Network) : Except String String :=
  if a.network = required then Except.ok a.addrRepr
  else Except.error networkMismatchMsg

/-- The validation pattern used at every address use site of `main.rs`
(lines 90-96, 141-147, 196-208, 220-228): `require_network(Network::Regtest)`
with the error wrapped by `map_err` into a transport error whose message is
prefixed with `"Address validation error: "`. -/
def validate_regtest (a : Address) : Except String String :=
  match require_network a Network.regtest with
  | Except.ok s => Except.ok s
  | Except.error e => Except.error ("Address validation error: " ++ e)

/-- One transaction output as decoded by `get_raw_transaction_info`:
`value` in sats and the optional resolved `script_pub_key.address`. -/
structure TxOutRec where
  value_sats : Nat
  address : Option Address
deriving DecidableEq, Repr

/-- One transaction input: the optional funding `txid` and optional output
index `vout` (both `Option` in the RPC decode; `main.rs` unwraps them). -/
structure TxInRec where
  txid : Option String
  vout : Option Nat
deriving DecidableEq, Repr

/-- A decoded raw transaction: ordered inputs and outputs. -/
structure RawTx where
  vin : List TxInRec
  vout : List TxOutRec
deriving DecidableEq, Repr

/-- Checked `u64` subtraction: in the source this is plain `-`, which on
underflow is a panic (debug-build overflow check), modelled as `none`. -/
def checked_sub (a b : Nat) : Option Nat :=
  if b ≤ a then some (a - b) else none

/-- Lines 246-248: `miner_input_amount_sats - trader_output_amount_sats -
miner_change_amount_sats`, two successive `u64` subtractions in satoshis. -/
def transaction_fees_sats (funding recipient change : Nat) : Option Nat :=
  match checked_sub funding recipient with
  | none => none
  | some x => checked_sub x change

/-- The four mutable classification slots of lines 211-216, at sats
precision (the parallel `f64` display fields are not modelled). All start
out as the empty string / zero. -/
structure OutputSlots where
  trader_output_address : String
  trader_output_amount_sats : Nat
  miner_change_address : String
  miner_change_amount_sats : Nat
deriving DecidableEq, Repr

/-- The initial slot values of lines 211-216. -/
def initSlots : OutputSlots :=
  { trader_output_address := ""
    trader_output_amount_sats := 0
    miner_change_address := ""
    miner_change_amount_sats := 0 }

/-- The body of the `for output in &raw_tx_info.vout` loop (lines 218-244):
outputs without a resolvable address are skipped; a wrong-network address
aborts the whole loop through `?`; an address equal to the trader address
overwrites the trader slots, any other overwrites the change slots. -/
def classifyOutput (trader_address : String) (st : OutputSlots) (output : TxOutRec) :
    Except String OutputSlots :=
  match output.address with
  | none => Except.ok st
  | some address =>
    match validate_regtest address with
    | Except.error e => Except.error e
    | Except.ok addr_str =>
      if addr_str = trader_address then
        Except.ok { st with
          trader_output_address := addr_str
          trader_output_amount_sats := output.value_sats }
      else
        Except.ok { st with
          miner_change_address := addr_str
          miner_change_amount_sats := output.value_sats }

/-- The whole classification loop of lines 218-244 over the output list. -/
def classifyOutputs (trader_address : String) (outputs : List TxOutRec) :
    Except String OutputSlots :=
  outputs.foldlM (classifyOutput trader_address) initSlots

/-- The reconciled report of lines 246-262, restricted to the fields with
arithmetic content (sats amounts, canonical addresses, fee in sats). -/
structure Reconciled where
  miner_input_address : String
  miner_input_amount_sats : Nat
  trader_output_address : String
  trader_output_amount_sats : Nat
  miner_change_address : String
  miner_change_amount_sats : Nat
  fee_sats : Nat
deriving DecidableEq, Repr

/-- Lines 186-249 of `main.rs`: extract the first input (`vin[0]` panics on
an empty list; `unwrap` panics on a missing txid / vout), fetch the prior
transaction (`getTx`; a missing transaction is an RPC error), index its
outputs (panics out of range), unwrap and validate the funding address,
classify the confirmed transaction's outputs against `trader_address`, and
compute the fee by satoshi subtraction. Panics and RPC errors are both
`Except.error`. -/
def reconcile (getTx : String → Option RawTx) (trader_address : String)
    (raw_tx_info : RawTx) : Except String Reconciled :=
  match raw_tx_info.vin.head? with
  | none => Except.error "panic: index out of bounds: vin[0]"
  | some first_input =>
    match first_input.txid with
    | none => Except.error "panic: called Option::unwrap on a None value (input txid)"
    | some input_txid =>
      match first_input.vout with
      | none => Except.error "panic: called Option::unwrap on a None value (input vout)"
      | some input_vout =>
        match getTx input_txid with
        | none => Except.error "RPC error: missing prior transaction"
        | some prev_tx_info =>
          match prev_tx_info.vout.get? input_vout with
          | none => Except.error "panic: index out of bounds: prev vout"
          | some input_output =>
            match input_output.address with
            | none => Except.error "panic: called Option::unwrap on a None value (funding address)"
            | some funding_addr =>
              match validate_regtest funding_addr with
              | Except.error e => Except.error e
              | Except.ok miner_input_address =>
                match classifyOutputs trader_address raw_tx_info.vout with
                | Except.error e => Except.error e
                | Except.ok slots =>
                  match transaction_fees_sats input_output.value_sats
                      slots.trader_output_amount_sats slots.miner_change_amount_sats with
                  | none => Except.error "panic: attempt to subtract with overflow"
                  | some fee =>
                    Except.ok {
                      miner_input_address := miner_input_address
                      miner_input_amount_sats := input_output.value_sats
                      trader_output_address := slots.trader_output_address
                      trader_output_amount_sats := slots.trader_output_amount_sats
                      miner_change_address := slots.miner_change_address
                      miner_change_amount_sats := slots.miner_change_amount_sats
                      fee_sats := fee }

/-- `main` returning `Err` (or panicking) terminates the process with a
non-zero outcome after printing the error; `Ok` exits with zero. -/
def processExitCode (r : Except String Reconciled) : Nat :=
  match r with
  | Except.ok _ => 0
  | Except.error _ => 1

/-- The report writer (lines 252-262) runs only after a successful
reconciliation; on any earlier error no line is written. Only the sats-level
fields of the report are modelled. -/
def writtenReport (r : Except String Reconciled) : Option (List String) :=
  match r with
  | Except.error _ => none
  | Except.ok rec =>
    some [rec.miner_input_address, rec.trader_output_address,
      rec.miner_change_address, toString rec.miner_input_amount_sats,
      toString rec.trader_output_amount_sats, toString rec.miner_change_amount_sats,
      toString rec.fee_sats]

/-- Lines 105-121: the mining loop. `balanceAfter n` is the Miner wallet
balance (in sats) reported by the node once `n` blocks total have been
generated by the loop. Each iteration generates 10 blocks, re-queries the
balance, stops if it is positive, else stops once 110 blocks were mined.
Returns (total blocks mined, final queried balance). -/
def fundingLoopGo (balanceAfter : Nat → Nat) (blocks_mined : Nat) : Nat × Nat :=
  if 0 < balanceAfter (blocks_mined + 10) then
    (blocks_mined + 10, balanceAfter (blocks_mined + 10))
  else if 110 ≤ blocks_mined + 10 then
    (blocks_mined + 10, balanceAfter (blocks_mined + 10))
  else fundingLoopGo balanceAfter (blocks_mined + 10)
termination_by 110 - blocks_mined
decreasing_by
  omega

/-- The mining loop started at `blocks_mined = 0` (line 105). -/
def fundingLoop (balanceAfter : Nat → Nat) : Nat × Nat :=
  fundingLoopGo balanceAfter 0

/-- Outcome of the wallet provisioning step. -/
inductive ProvisionOutcome where
  | created
  | loaded
  | loadFailed (e : String)
deriving DecidableEq, Repr

/-- Lines 49-60 (and identically 63-74): `create_wallet`, falling back on
error to `load_wallet`; a failing load is only printed, never propagated. -/
def provision_wallet (create_result load_result : Except String Unit) : ProvisionOutcome :=
  match create_result with
  | Except.ok _ => ProvisionOutcome.created
  | Except.error _ =>
    match load_result with
    | Except.ok _ => ProvisionOutcome.loaded
    | Except.error e => ProvisionOutcome.loadFailed e

/-- The provisioning step as it sits in `main`: the surrounding `match` is
an expression without `?`, so the step always continues the workflow
normally with an outcome. -/
def provision_step (create_result load_result : Except String Unit) :
    Except String ProvisionOutcome :=
  Except.ok (provision_wallet create_result load_result)

/-- The resolved (address string, sats) pairs of an output list, in order:
outputs without an address are dropped. Used to state what the
classification loop computes. -/
def resolvedPairs (outputs : List TxOutRec) : List (String × Nat) :=
  outputs.filterMap (fun o => o.address.map (fun a => (a.addrRepr, o.value_sats)))

/-- A sample node view for concrete runs: every transaction id resolves to
one prior transaction holding a single 50 BTC (5,000,000,000 sat) regtest
coinbase output. -/
def sampleGetTx : String → Option RawTx := fun _ =>
  some ⟨[], [⟨5000000000, some ⟨Network.regtest, "minerAddr"⟩⟩]⟩

/-- A sample confirmed transaction: one input spending output 0 of `prev`,
one 20 BTC output to `addrA` and one change output to `addrB`. -/
def sampleTx : RawTx :=
  ⟨[⟨some "prev", some 0⟩],
   [⟨2000000000, some ⟨Network.regtest, "addrA"⟩⟩,
    ⟨2999998500, some ⟨Network.regtest, "addrB"⟩⟩]⟩

/-- The report the reconciliation step produces on `sampleTx`. -/
def sampleReport : Reconciled :=
  ⟨"minerAddr", 5000000000, "addrA", 2000000000, "addrB", 2999998500, 1500⟩

end Capstone

open Capstone

/-- Auxiliary: last element of a cons with default is last of the tail with
the head as new default. -/
lemma lastGetD_cons {α : Type} (p d : α) (l : List α) :
    ((p :: l).getLast?.getD d) = l.getLast?.getD p := by
  induction l generalizing p d with
  | nil => rfl
  | cons q t ih =>
    rw [List.getLast?_cons_cons, ih q d, ih q p]

/-- C1 arithmetic core: when no underflow occurs the fee is the exact
integer difference. -/
lemma transaction_fees_sats_eq {f r c : Nat} (h : r + c ≤ f) :
    transaction_fees_sats f r c = some (f - r - c) := by
  unfold transaction_fees_sats checked_sub
  rw [if_pos (by omega)]
  simp only []
  rw [if_pos (by omega)]

/-- C1: the reconciliation fee is computed by exact integer subtraction in
satoshis: whenever `recipient + change ≤ funding` (so the `u64` subtraction
does not underflow), `fee = funding - recipient - change`; and at the
spec's concrete precision example, funding = 5,000,000,000 sat, recipient =
2,000,000,000 sat, change = 2,999,998,500 sat, the fee is exactly 1,500 sat
with no rounding. -/
theorem fee_exact_integer_subtraction :
    (∀ funding recipient change : Nat, recipient + change ≤ funding →
      transaction_fees_sats funding recipient change = some (funding - recipient - change)) ∧
    transaction_fees_sats 5000000000 2000000000 2999998500 = some 1500 := by
  constructor
  · intro funding recipient change h
    exact transaction_fees_sats_eq h
  · rfl

/-- C1 witness: the general part applied at the concrete precision
example. -/
theorem fee_exact_integer_subtraction_witness :
    transaction_fees_sats 5000000000 2000000000 2999998500 = some (5000000000 - 2000000000 - 2999998500) :=
  fee_exact_integer_subtraction.1 5000000000 2000000000 2999998500 (by norm_num)

/-- The classification loop skips outputs without a resolvable address:
with none resolvable it leaves the slots untouched. -/
lemma classify_fold_none (dest : String) (outs : List TxOutRec) :
    ∀ st : OutputSlots,
    (∀ o ∈ outs, o.address = none) →
    outs.foldlM (classifyOutput dest) st = Except.ok st := by
  induction outs with
  | nil => intro st _; rfl
  | cons o t ih =>
    intro st h
    rw [List.foldlM_cons]
    have ho : o.address = none := h o (List.mem_cons_self o t)
    have hc : classifyOutput dest st o = Except.ok st := by
      simp [classifyOutput, ho]
    rw [hc]
    exact ih st (fun o' ho' => h o' (List.mem_cons_of_mem _ ho'))

/-- What the classification loop of lines 218-244 computes, for any start
state, when every resolvable output address is on regtest: the trader slots
hold the data of the last output whose canonical address equals the trader
address, the change slots the data of the last output whose canonical
address differs, each defaulting to the start state's slots. -/
lemma classify_fold_spec (dest : String) (outs : List TxOutRec) :
    ∀ st : OutputSlots,
    (∀ o ∈ outs, ∀ a, o.address = some a → a.network = Network.regtest) →
    outs.foldlM (classifyOutput dest) st = Except.ok {
      trader_output_address :=
        (((resolvedPairs outs).filter (fun p => p.1 == dest)).getLast?.getD
          (st.trader_output_address, st.trader_output_amount_sats)).1
      trader_output_amount_sats :=
        (((resolvedPairs outs).filter (fun p => p.1 == dest)).getLast?.getD
          (st.trader_output_address, st.trader_output_amount_sats)).2
      miner_change_address :=
        (((resolvedPairs outs).filter (fun p => !(p.1 == dest))).getLast?.getD
          (st.miner_change_address, st.miner_change_amount_sats)).1
      miner_change_amount_sats :=
        (((resolvedPairs outs).filter (fun p => !(p.1 == dest))).getLast?.getD
          (st.miner_change_address, st.miner_change_amount_sats)).2 } := by
  induction outs with
  | nil =>
    intro st _
    rfl
  | cons o t ih =>
    intro st h
    have ht : ∀ o' ∈ t, ∀ a, o'.address = some a → a.network = Network.regtest :=
      fun o' ho' => h o' (List.mem_cons_of_mem _ ho')
    rw [List.foldlM_cons]
    cases ho : o.address with
    | none =>
      have hc : classifyOutput dest st o = Except.ok st := by simp [classifyOutput, ho]
      have hr : resolvedPairs (o :: t) = resolvedPairs t := by
        simp [resolvedPairs, ho]
      rw [hc, hr]
      exact ih st ht
    | some a =>
      have ha : a.network = Network.regtest := h o (List.mem_cons_self o t) a ho
      have hv : validate_regtest a = Except.ok a.addrRepr := by
        simp [validate_regtest, require_network, ha]
      have hr : resolvedPairs (o :: t) = (a.addrRepr, o.value_sats) :: resolvedPairs t := by
        simp [resolvedPairs, ho]
      by_cases heq : a.addrRepr = dest
      · have hc : classifyOutput dest st o = Except.ok { st with
            trader_output_address := a.addrRepr
            trader_output_amount_sats := o.value_sats } := by
          simp [classifyOutput, ho, hv, heq]
        rw [hc, hr]
        have h1 : ((a.addrRepr, o.value_sats) :: resolvedPairs t).filter (fun p => p.1 == dest)
            = (a.addrRepr, o.value_sats) :: (resolvedPairs t).filter (fun p => p.1 == dest) := by
          simp [List.filter_cons, heq]
        have h2 : ((a.addrRepr, o.value_sats) :: resolvedPairs t).filter (fun p => !(p.1 == dest))
            = (resolvedPairs t).filter (fun p => !(p.1 == dest)) := by
          simp [List.filter_cons, heq]
        rw [h1, h2, lastGetD_cons]
        exact ih _ ht
      · have hc : classifyOutput dest st o = Except.ok { st with
            miner_change_address := a.addrRepr
            miner_change_amount_sats := o.value_sats } := by
          simp [classifyOutput, ho, hv, heq]
        rw [hc, hr]
        have h1 : ((a.addrRepr, o.value_sats) :: resolvedPairs t).filter (fun p => p.1 == dest)
            = (resolvedPairs t).filter (fun p => p.1 == dest) := by
          simp [List.filter_cons, heq]
        have h2 : ((a.addrRepr, o.value_sats) :: resolvedPairs t).filter (fun p => !(p.1 == dest))
            = (a.addrRepr, o.value_sats) :: (resolvedPairs t).filter (fun p => !(p.1 == dest)) := by
          simp [List.filter_cons, heq]
        rw [h1, h2, lastGetD_cons]
        exact ih _ ht

/-- C3: for every output of the confirmed transaction whose address
resolves (all on regtest), the output whose canonical address string equals
the destination is classified into the recipient (trader) slots and every
other resolved output into the change slots, the last one encountered
winning; in particular for outputs [(addrA, 2000000000), (addrB, 2999998500)]
with destination addrA, the recipient binds to addrA's amount and the
change to addrB's amount, in either output order. -/
theorem output_classification (dest : String) (outs : List TxOutRec)
    (h : ∀ o ∈ outs, ∀ a, o.address = some a → a.network = Network.regtest) :
    classifyOutputs dest outs = Except.ok {
      trader_output_address :=
        (((resolvedPairs outs).filter (fun p => p.1 == dest)).getLast?.getD ("", 0)).1
      trader_output_amount_sats :=
        (((resolvedPairs outs).filter (fun p => p.1 == dest)).getLast?.getD ("", 0)).2
      miner_change_address :=
        (((resolvedPairs outs).filter (fun p => !(p.1 == dest))).getLast?.getD ("", 0)).1
      miner_change_amount_sats :=
        (((resolvedPairs outs).filter (fun p => !(p.1 == dest))).getLast?.getD ("", 0)).2 } ∧
    classifyOutputs "addrA"
      [⟨2000000000, some ⟨Network.regtest, "addrA"⟩⟩,
       ⟨2999998500, some ⟨Network.regtest, "addrB"⟩⟩] =
      Except.ok ⟨"addrA", 2000000000, "addrB", 2999998500⟩ ∧
    classifyOutputs "addrA"
      [⟨2999998500, some ⟨Network.regtest, "addrB"⟩⟩,
       ⟨2000000000, some ⟨Network.regtest, "addrA"⟩⟩] =
      Except.ok ⟨"addrA", 2000000000, "addrB", 2999998500⟩ := by
  refine ⟨?_, ?_, ?_⟩
  · exact classify_fold_spec dest outs initSlots h
  · rfl
  · rfl

/-- C3 witness: the classification applied to the spec's concrete example
[(addrA, 2000000000), (addrB, 2999998500)] with destination addrA. -/
theorem output_classification_witness :
    classifyOutputs "addrA"
      [⟨2000000000, some ⟨Network.regtest, "addrA"⟩⟩,
       ⟨2999998500, some ⟨Network.regtest, "addrB"⟩⟩] =
      Except.ok ⟨"addrA", 2000000000, "addrB", 2999998500⟩ :=
  (output_classification "addrA"
    [⟨2000000000, some ⟨Network.regtest, "addrA"⟩⟩,
     ⟨2999998500, some ⟨Network.regtest, "addrB"⟩⟩]
    (by decide)).2.1

/-- C10 (implicit): when more than one output resolves exactly to the
destination address, the recipient slots are also last-write-wins: they
hold only the data of the last matching output, not the sum over all
matching outputs; concretely, for two outputs of 100 and 50 sats both to
addrA the recipient amount ends up 50, not 150. -/
theorem recipient_last_write_wins (dest : String) (outs : List TxOutRec)
    (h : ∀ o ∈ outs, ∀ a, o.address = some a → a.network = Network.regtest) :
    (∃ st, classifyOutputs dest outs = Except.ok st ∧
      (st.trader_output_address, st.trader_output_amount_sats) =
        ((resolvedPairs outs).filter (fun p => p.1 == dest)).getLast?.getD ("", 0)) ∧
    classifyOutputs "addrA"
      [⟨100, some ⟨Network.regtest, "addrA"⟩⟩, ⟨50, some ⟨Network.regtest, "addrA"⟩⟩] =
      Except.ok ⟨"addrA", 50, "", 0⟩ ∧
    (∀ st, classifyOutputs "addrA"
      [⟨100, some ⟨Network.regtest, "addrA"⟩⟩, ⟨50, some ⟨Network.regtest, "addrA"⟩⟩] =
        Except.ok st → st.trader_output_amount_sats ≠ 100 + 50) := by
  refine ⟨⟨_, classify_fold_spec dest outs initSlots h, rfl⟩, rfl, ?_⟩
  intro st hst
  have h0 : (Except.ok (OutputSlots.mk "addrA" 50 "" 0) : Except String OutputSlots) =
      Except.ok st := by
    rw [← hst]
    rfl
  injection h0 with h0
  rw [← h0]
  decide

/-- C10 witness: two outputs both paying the destination address, the
second of 50 sats: the recipient slot reflects only the last one. -/
theorem recipient_last_write_wins_witness :
    classifyOutputs "addrA"
      [⟨100, some ⟨Network.regtest, "addrA"⟩⟩, ⟨50, some ⟨Network.regtest, "addrA"⟩⟩] =
      Except.ok ⟨"addrA", 50, "", 0⟩ :=
  (recipient_last_write_wins "addrA"
    [⟨100, some ⟨Network.regtest, "addrA"⟩⟩, ⟨50, some ⟨Network.regtest, "addrA"⟩⟩]
    (by decide)).2.1

/-- The fee subtraction succeeds exactly when no `u64` underflow occurs,
and then it is the exact difference. -/
lemma transaction_fees_sats_some {f r c fee : Nat}
    (h : transaction_fees_sats f r c = some fee) :
    r + c ≤ f ∧ fee = f - r - c := by
  unfold transaction_fees_sats at h
  cases hx : checked_sub f r with
  | none => rw [hx] at h; cases h
  | some x =>
    rw [hx] at h
    simp only [] at h
    unfold checked_sub at hx h
    split at hx
    · rename_i h1
      injection hx with hx
      split at h
      · rename_i h2
        injection h with h
        omega
      · cases h
    · cases hx

/-- C2: every reconciled transfer the reconciliation step actually produces
satisfies `fundingAmount ≥ recipientAmount + changeAmount`, and its fee is
the exact non-negative integer difference (with synthetic amounts violating
the inequality, the `u64` subtraction underflows, which is a panic and
produces no transfer at all). -/
theorem reconciled_fee_nonneg (getTx : String → Option RawTx) (dest : String)
    (tx : RawTx) (r : Reconciled) (h : reconcile getTx dest tx = Except.ok r) :
    r.trader_output_amount_sats + r.miner_change_amount_sats ≤ r.miner_input_amount_sats ∧
    (r.fee_sats : Int) =
      (r.miner_input_amount_sats : Int) - (r.trader_output_amount_sats : Int) -
        (r.miner_change_amount_sats : Int) ∧
    0 ≤ (r.fee_sats : Int) := by
  unfold reconcile at h
  cases hvin : tx.vin.head? with
  | none => simp only [hvin] at h; exact Except.noConfusion h
  | some first_input =>
  simp only [hvin] at h
  cases htxid : first_input.txid with
  | none => simp only [htxid] at h; exact Except.noConfusion h
  | some input_txid =>
  simp only [htxid] at h
  cases hvout : first_input.vout with
  | none => simp only [hvout] at h; exact Except.noConfusion h
  | some input_vout =>
  simp only [hvout] at h
  cases hget : getTx input_txid with
  | none => simp only [hget] at h; exact Except.noConfusion h
  | some prev_tx_info =>
  simp only [hget] at h
  cases hio : prev_tx_info.vout.get? input_vout with
  | none => simp only [hio] at h; exact Except.noConfusion h
  | some input_output =>
  simp only [hio] at h
  cases haddr : input_output.address with
  | none => simp only [haddr] at h; exact Except.noConfusion h
  | some funding_addr =>
  simp only [haddr] at h
  cases hval : validate_regtest funding_addr with
  | error e => simp only [hval] at h; exact Except.noConfusion h
  | ok miner_addr =>
  simp only [hval] at h
  cases hcls : classifyOutputs dest tx.vout with
  | error e => simp only [hcls] at h; exact Except.noConfusion h
  | ok slots =>
  simp only [hcls] at h
  cases hfee : transaction_fees_sats input_output.value_sats slots.trader_output_amount_sats
      slots.miner_change_amount_sats with
  | none => simp only [hfee] at h; exact Except.noConfusion h
  | some fee =>
  simp only [hfee] at h
  injection h with h
  subst h
  obtain ⟨h1, h2⟩ := transaction_fees_sats_some hfee
  dsimp only
  refine ⟨h1, ?_, ?_⟩ <;> omega

/-- C2 witness: the reconciliation of `sampleTx` (funding 5,000,000,000
sat, recipient 2,000,000,000 sat, change 2,999,998,500 sat) satisfies the
conservation inequality and the exact fee equation. -/
theorem reconciled_fee_nonneg_witness :
    sampleReport.trader_output_amount_sats + sampleReport.miner_change_amount_sats ≤
      sampleReport.miner_input_amount_sats ∧
    (sampleReport.fee_sats : Int) =
      (sampleReport.miner_input_amount_sats : Int) - (sampleReport.trader_output_amount_sats : Int) -
        (sampleReport.miner_change_amount_sats : Int) ∧
    0 ≤ (sampleReport.fee_sats : Int) :=
  reconciled_fee_nonneg sampleGetTx "addrA" sampleTx sampleReport rfl

/-- C4: a transaction in which no output has a resolvable address
reconciles successfully (it is not an error): recipient and change
addresses are empty, recipient and change amounts are zero, and the fee
equals the full funding amount. -/
theorem no_resolvable_outputs (getTx : String → Option RawTx) (dest t : String) (v : Nat)
    (tx ptx : RawTx) (fo : TxOutRec) (fa : Address)
    (hvin : tx.vin.head? = some ⟨some t, some v⟩)
    (hget : getTx t = some ptx)
    (hfo : ptx.vout.get? v = some fo)
    (hfa : fo.address = some fa)
    (hreg : fa.network = Network.regtest)
    (hnone : ∀ o ∈ tx.vout, o.address = none) :
    reconcile getTx dest tx = Except.ok
      ⟨fa.addrRepr, fo.value_sats, "", 0, "", 0, fo.value_sats⟩ := by
  have hval : validate_regtest fa = Except.ok fa.addrRepr := by
    simp [validate_regtest, require_network, hreg]
  have hcls : classifyOutputs dest tx.vout = Except.ok initSlots :=
    classify_fold_none dest tx.vout initSlots hnone
  have hfee : transaction_fees_sats fo.value_sats 0 0 = some fo.value_sats := by
    simp [transaction_fees_sats, checked_sub]
  unfold reconcile
  simp only [hvin, hget, hfo, hfa, hval, hcls, hfee, initSlots]

/-- C4 witness: a transaction whose two outputs both lack a resolvable
address reconciles to empty recipient/change fields and a fee equal to the
full 7,000 sat funding amount. -/
theorem no_resolvable_outputs_witness :
    reconcile (fun _ => some ⟨[], [⟨7000, some ⟨Network.regtest, "m"⟩⟩]⟩) "d"
      ⟨[⟨some "p", some 0⟩], [⟨100, none⟩, ⟨200, none⟩]⟩ =
      Except.ok ⟨"m", 7000, "", 0, "", 0, 7000⟩ :=
  no_resolvable_outputs (fun _ => some ⟨[], [⟨7000, some ⟨Network.regtest, "m"⟩⟩]⟩)
    "d" "p" 0 ⟨[⟨some "p", some 0⟩], [⟨100, none⟩, ⟨200, none⟩]⟩
    ⟨[], [⟨7000, some ⟨Network.regtest, "m"⟩⟩]⟩ ⟨7000, some ⟨Network.regtest, "m"⟩⟩
    ⟨Network.regtest, "m"⟩ rfl rfl rfl rfl rfl (by decide)

/-- C7: when the confirmed transaction's first input lacks a prior
transaction id, or the prior transaction is missing, or the referenced
output index is out of range of the prior transaction's outputs, the
reconciliation step is fatal: it yields an error (no reconciled report is
produced), nothing is written, and the process exit outcome is non-zero. -/
theorem reconcile_fatal_faults (getTx : String → Option RawTx) (dest : String)
    (tx : RawTx) (first_input : TxInRec) (hvin : tx.vin.head? = some first_input) :
    (first_input.txid = none → ∃ msg, reconcile getTx dest tx = Except.error msg) ∧
    (∀ t v, first_input.txid = some t → first_input.vout = some v → getTx t = none →
      ∃ msg, reconcile getTx dest tx = Except.error msg) ∧
    (∀ t v ptx, first_input.txid = some t → first_input.vout = some v →
      getTx t = some ptx → ptx.vout.length ≤ v →
      ∃ msg, reconcile getTx dest tx = Except.error msg) ∧
    (∀ msg, reconcile getTx dest tx = Except.error msg →
      writtenReport (reconcile getTx dest tx) = none ∧
      processExitCode (reconcile getTx dest tx) = 1) := by
  refine ⟨?_, ?_, ?_, ?_⟩
  · intro h
    refine ⟨"panic: called Option::unwrap on a None value (input txid)", ?_⟩
    unfold reconcile
    simp only [hvin, h]
  · intro t v ht hv hg
    refine ⟨"RPC error: missing prior transaction", ?_⟩
    unfold reconcile
    simp only [hvin, ht, hv, hg]
  · intro t v ptx ht hv hg hlen
    have hio : ptx.vout.get? v = none := List.get?_eq_none.mpr hlen
    refine ⟨"panic: index out of bounds: prev vout", ?_⟩
    unfold reconcile
    simp only [hvin, ht, hv, hg, hio]
  · intro msg hmsg
    rw [hmsg]
    exact ⟨rfl, rfl⟩

/-- C7 witness: a confirmed transaction whose only input carries no prior
transaction id makes the reconciliation step fail. -/
theorem reconcile_fatal_faults_witness :
    ∃ msg, reconcile (fun _ => none) "" ⟨[⟨none, none⟩], []⟩ = Except.error msg :=
  (reconcile_fatal_faults (fun _ => none) "" ⟨[⟨none, none⟩], []⟩ ⟨none, none⟩ rfl).1 rfl

/-- Invariant of the mining loop resumed after `m` generated blocks, `m` a
multiple of 10: the loop mines at least one more batch; it never exceeds
110 blocks when resumed at or below 100; the returned balance is the last
queried one; it stops only on a positive balance or at the ceiling; the
total is `m` plus a positive number of batches; and every earlier balance
query (at multiples of 10 strictly between `m` and the stop point)
returned zero. -/
lemma fundingLoopGo_spec (b : Nat → Nat) (m : Nat) (hm : m % 10 = 0) :
    m + 10 ≤ (fundingLoopGo b m).1 ∧
    (m ≤ 100 → (fundingLoopGo b m).1 ≤ 110) ∧
    (fundingLoopGo b m).2 = b (fundingLoopGo b m).1 ∧
    (0 < (fundingLoopGo b m).2 ∨ 110 ≤ (fundingLoopGo b m).1) ∧
    (∃ k, 1 ≤ k ∧ (fundingLoopGo b m).1 = m + 10 * k) ∧
    (∀ x, m < x → x < (fundingLoopGo b m).1 → x % 10 = 0 → b x = 0) := by
  unfold fundingLoopGo
  by_cases h1 : 0 < b (m + 10)
  · rw [if_pos h1]
    refine ⟨le_refl _, by omega, rfl, Or.inl h1, ⟨1, le_refl 1, by omega⟩, ?_⟩
    intro x hx1 hx2 _
    omega
  · rw [if_neg h1]
    by_cases h2 : 110 ≤ m + 10
    · rw [if_pos h2]
      refine ⟨le_refl _, by omega, rfl, Or.inr h2, ⟨1, le_refl 1, by omega⟩, ?_⟩
      intro x hx1 hx2 _
      omega
    · rw [if_neg h2]
      obtain ⟨ih1, ih2, ih3, ih4, ⟨k, hk1, hk2⟩, ih6⟩ :=
        fundingLoopGo_spec b (m + 10) (by omega)
      refine ⟨by omega, ?_, ih3, ih4, ⟨k + 1, by omega, by omega⟩, ?_⟩
      · intro _
        exact ih2 (by omega)
      · intro x hx1 hx2 hx3
        by_cases hx : x = m + 10
        · rw [hx]
          omega
        · exact ih6 x (by omega) hx2 hx3
termination_by 110 - m
decreasing_by omega

/-- C5: the funding loop with batch size 10 and ceiling 110 performs at
most 11 generation calls (its final block total is `10 * k` with
`1 ≤ k ≤ 11`, one generation call per batch of 10), and it stops at the
first iteration whose balance query is positive: every earlier iteration's
query returned zero, and it only stops on a positive balance or at the
ceiling. -/
theorem funding_loop_bound (balanceAfter : Nat → Nat) :
    (∃ k, 1 ≤ k ∧ k ≤ 11 ∧ (fundingLoop balanceAfter).1 = 10 * k) ∧
    (fundingLoop balanceAfter).2 = balanceAfter (fundingLoop balanceAfter).1 ∧
    (∀ j, 1 ≤ j → 10 * j < (fundingLoop balanceAfter).1 → balanceAfter (10 * j) = 0) ∧
    (0 < (fundingLoop balanceAfter).2 ∨ 110 ≤ (fundingLoop balanceAfter).1) := by
  obtain ⟨h1, h2, h3, h4, ⟨k, hk1, hk2⟩, h6⟩ := fundingLoopGo_spec balanceAfter 0 rfl
  have h2' := h2 (by omega)
  have e : fundingLoop balanceAfter = fundingLoopGo balanceAfter 0 := rfl
  rw [e]
  refine ⟨⟨k, hk1, by omega, by omega⟩, h3, ?_, h4⟩
  intro j hj1 hj2
  exact h6 (10 * j) (by omega) hj2 (by omega)

/-- C6: if every balance query up to the ceiling returns zero, the funding
loop stops at exactly 110 generated blocks and returns the (zero) balance
as an ordinary value: the workflow continues with it, no error is raised. -/
theorem funding_loop_ceiling (balanceAfter : Nat → Nat)
    (h : ∀ k, 1 ≤ k → k ≤ 11 → balanceAfter (10 * k) = 0) :
    fundingLoop balanceAfter = (110, 0) := by
  obtain ⟨h1, h2, h3, h4, ⟨k, hk1, hk2⟩, h6⟩ := fundingLoopGo_spec balanceAfter 0 rfl
  have h2' := h2 (by omega)
  have hbal : balanceAfter ((fundingLoopGo balanceAfter 0).1) = 0 := by
    have hk : (fundingLoopGo balanceAfter 0).1 = 10 * k := by omega
    rw [hk]
    exact h k (by omega) (by omega)
  have hz : (fundingLoopGo balanceAfter 0).2 = 0 := by rw [h3, hbal]
  have h110 : (fundingLoopGo balanceAfter 0).1 = 110 := by
    rcases h4 with h4 | h4 <;> omega
  have e : fundingLoop balanceAfter = fundingLoopGo balanceAfter 0 := rfl
  have ep : fundingLoopGo balanceAfter 0 =
      ((fundingLoopGo balanceAfter 0).1, (fundingLoopGo balanceAfter 0).2) := rfl
  rw [e, ep, h110, hz]

/-- C6 witness: with a wallet whose balance stays zero at every query, the
loop stops at the 110-block ceiling with balance zero. -/
theorem funding_loop_ceiling_witness : fundingLoop (fun _ => 0) = (110, 0) :=
  funding_loop_ceiling (fun _ => 0) (fun _ _ _ => rfl)

/-- C8: an address is validated against the regtest network before use:
a regtest address passes through as its canonical string, while an address
of any other network yields a validation error wrapped with the
"Address validation error: " context, and no continuation ever receives
the address (the bind short-circuits with that error). -/
theorem address_network_validation (a : Address)
    (use : String → Except String Reconciled) :
    (a.network = Network.regtest → validate_regtest a = Except.ok a.addrRepr) ∧
    (a.network ≠ Network.regtest →
      validate_regtest a = Except.error ("Address validation error: " ++ networkMismatchMsg) ∧
      (validate_regtest a >>= use) =
        Except.error ("Address validation error: " ++ networkMismatchMsg)) := by
  constructor
  · intro h
    simp [validate_regtest, require_network, h]
  · intro h
    have hv : validate_regtest a =
        Except.error ("Address validation error: " ++ networkMismatchMsg) := by
      simp [validate_regtest, require_network, h]
    exact ⟨hv, by rw [hv]; rfl⟩

/-- C8 witness: a testnet address is rejected with the wrapped validation
error and the continuation after it never runs. -/
theorem address_network_validation_witness :
    validate_regtest ⟨Network.testnet, "tb1-addr"⟩ =
      Except.error ("Address validation error: " ++ networkMismatchMsg) ∧
    (validate_regtest ⟨Network.testnet, "tb1-addr"⟩ >>=
      (fun s => Except.ok (⟨s, 0, "", 0, "", 0, 0⟩ : Reconciled))) =
      Except.error ("Address validation error: " ++ networkMismatchMsg) :=
  (address_network_validation ⟨Network.testnet, "tb1-addr"⟩
    (fun s => Except.ok (⟨s, 0, "", 0, "", 0, 0⟩ : Reconciled))).2 (by decide)

/-- C9: wallet provisioning is idempotent for the workflow: when creation
fails (wallet already exists) the code falls back to loading, and whatever
the load result is, the provisioning step continues the workflow normally
(it never propagates an error). -/
theorem provisioning_idempotent (load_result : Except String Unit) :
    (∀ e, provision_wallet (Except.error e) load_result ≠ ProvisionOutcome.created) ∧
    (∀ e u, load_result = Except.ok u →
      provision_wallet (Except.error e) load_result = ProvisionOutcome.loaded) ∧
    (∀ e msg, load_result = Except.error msg →
      provision_wallet (Except.error e) load_result = ProvisionOutcome.loadFailed msg) ∧
    (∀ create_result, ∃ o, provision_step create_result load_result = Except.ok o) := by
  refine ⟨?_, ?_, ?_, ?_⟩
  · intro e
    cases load_result <;> simp [provision_wallet]
  · intro e u h
    rw [h]
    rfl
  · intro e msg h
    rw [h]
    rfl
  · intro c
    exact ⟨provision_wallet c load_result, rfl⟩

/-- C9 witness: creation failing with "wallet already exists" and a
successful load degrade to load semantics without erroring. -/
theorem provisioning_idempotent_witness :
    provision_wallet (Except.error "wallet already exists") (Except.ok ()) =
      ProvisionOutcome.loaded :=
  (provisioning_idempotent (Except.ok ())).2.1 "wallet already exists" () rfl

/-- C5 witness: with a wallet whose balance is positive from the first
query on, the loop stops after one batch of 10 blocks. -/
theorem funding_loop_bound_witness :
    (∃ k, 1 ≤ k ∧ k ≤ 11 ∧ (fundingLoop (fun _ => 1)).1 = 10 * k) ∧
    (fundingLoop (fun _ => 1)).2 = (fun _ => (1 : Nat)) (fundingLoop (fun _ => 1)).1 ∧
    (∀ j, 1 ≤ j → 10 * j < (fundingLoop (fun _ => 1)).1 → (fun _ => (1 : Nat)) (10 * j) = 0) ∧
    (0 < (fundingLoop (fun _ => 1)).2 ∨ 110 ≤ (fundingLoop (fun _ => 1)).1) :=
  funding_loop_bound (fun _ => 1)
